import Mathlib

/-!
Shallow embedding of `src/zarchiver.py`, a multi-format compression and
decompression command-line tool.

Modelling conventions:
* Byte strings are `List Nat` (each element a byte value).
* The filesystem is an association list from path strings to entries; an
  entry is either a regular file with its content, or a directory carrying
  the tree of files under it (used by `compress_directory`'s `os.walk`).
* The external codec libraries (`gzip`, `lzma`, `bz2`, `zipfile`, `tarfile`)
  are abstract encode/decode functions collected in a `CodecEnv`; theorems
  that need them assume the usual round-trip laws as hypotheses.
* Each operation returns the filesystem after the call together with
  `none` on success or `some e` when the Python code raises: `ZErr.comp`
  for the tool's own `CompressionError`, `ZErr.io` for errors propagated
  from the underlying I/O libraries.
-/

abbrev Bytes := List Nat

/-- Tree of regular files under a directory: named files at this level and
named subdirectories, mirroring what `os.walk` traverses. -/
inductive DirTree where
  | mk : List (String × Bytes) → List (String × DirTree) → DirTree

/-- Filesystem entry: a regular file with content, or a directory with the
tree of files below it. -/
inductive FSEntry where
  | file : Bytes → FSEntry
  | dir : DirTree → FSEntry

abbrev FS := List (String × FSEntry)

def FS.lookup : FS → String → Option FSEntry
  | [], _ => none
  | e :: rest, p => if e.1 = p then some e.2 else FS.lookup rest p

/-- Path.exists check used by both validators. -/
def pathExists (fs : FS) (p : String) : Bool :=
  (FS.lookup fs p).isSome

/-- Reading a path with `open(p, "rb")`: succeeds only on a regular file. -/
def readFile (fs : FS) (p : String) : Option Bytes :=
  match FS.lookup fs p with
  | some (FSEntry.file b) => some b
  | _ => none

/-- Writing a regular file; a later write at the same path shadows an
earlier entry (lookup finds the most recent write first). -/
def writeFile (fs : FS) (p : String) (b : Bytes) : FS :=
  (p, FSEntry.file b) :: fs

/-- Custom error class for compression-related errors (`class
CompressionError(Exception)`), carrying only its message string. -/
structure CompressionError where
  msg : String
deriving DecidableEq

/-- Error raised at the process boundary: either the tool's own
`CompressionError` or an uncaught error from an I/O library. -/
inductive ZErr where
  | comp : CompressionError → ZErr
  | io : String → ZErr

/-- Message of `raise CompressionError(f"Input path does not exist: {input_path}")`. -/
def inputMissingErr (p : String) : CompressionError :=
  ⟨"Input path does not exist: " ++ p⟩

/-- Message of `raise CompressionError(f"Output path already exists: {output_path}")`. -/
def outputExistsErr (p : String) : CompressionError :=
  ⟨"Output path already exists: " ++ p⟩

/-- Message of `raise CompressionError(f"Unsupported format: {x}")`; the
source interpolates the format tag in `compress_file` and the input path
in `decompress`. -/
def unsupportedFormatErr (s : String) : CompressionError :=
  ⟨"Unsupported format: " ++ s⟩

/-- Message of `raise CompressionError(f"Unsupported format for directories: {format}")`. -/
def unsupportedDirFormatErr (s : String) : CompressionError :=
  ⟨"Unsupported format for directories: " ++ s⟩

/-- Validate that the input path exists (`validate_input_path`). -/
def validate_input_path (fs : FS) (input_path : String) : Option CompressionError :=
  if pathExists fs input_path then none else some (inputMissingErr input_path)

/-- Validate that the output path does not overwrite an existing file
(`validate_output_path`). -/
def validate_output_path (fs : FS) (output_path : String) : Option CompressionError :=
  if pathExists fs output_path then some (outputExistsErr output_path) else none

/-- Python `os.path.basename`: the part of the path after the last slash. -/
def basename (p : String) : String :=
  (p.splitOn "/").getLastD ""

/-- Python `str.endswith`: suffix test on the character sequence. -/
def strEndsWith (s suffix : String) : Bool :=
  suffix.data.isSuffixOf s.data

/-- Abstract interface to the external codec and archive libraries. Encoders
take the compression level where the source passes one; `zipPack` receives
`some level` from `compress_file` and `none` from `compress_directory`
(which opens the `ZipFile` without `compresslevel`). Archive payloads are
ordered lists of (entry name, entry bytes). Decoders are partial because
the libraries reject malformed inputs. -/
structure CodecEnv where
  gzEnc : Nat → Bytes → Bytes
  gzDec : Bytes → Option Bytes
  xzEnc : Nat → Bytes → Bytes
  xzDec : Bytes → Option Bytes
  bz2Enc : Nat → Bytes → Bytes
  bz2Dec : Bytes → Option Bytes
  zipPack : Option Nat → List (String × Bytes) → Bytes
  zipUnpack : Bytes → Option (List (String × Bytes))
  tarPack : List (String × Bytes) → Bytes
  tarUnpack : Bytes → Option (List (String × Bytes))

/-- Compress a single file (`compress_file`). Validations run first, then
the whole input is read, then the format dispatch chain writes the output
in one of the six formats or raises `Unsupported format`. -/
def compress_file (env : CodecEnv) (fs : FS) (input_path output_path format : String)
    (level : Nat) : FS × Option ZErr :=
  match validate_input_path fs input_path with
  | some e => (fs, some (ZErr.comp e))
  | none =>
  match validate_output_path fs output_path with
  | some e => (fs, some (ZErr.comp e))
  | none =>
  match readFile fs input_path with
  | none => (fs, some (ZErr.io ("not a readable regular file: " ++ input_path)))
  | some data =>
    if format = "gz" then
      (writeFile fs output_path (env.gzEnc level data), none)
    else if format = "xz" then
      (writeFile fs output_path (env.xzEnc level data), none)
    else if format = "bz2" then
      (writeFile fs output_path (env.bz2Enc level data), none)
    else if format = "zip" then
      (writeFile fs output_path (env.zipPack (some level) [(basename input_path, data)]), none)
    else if format = "tar" then
      (writeFile fs output_path (env.tarPack [(basename input_path, data)]), none)
    else if format = "zst" then
      (writeFile fs output_path data, none)
    else (fs, some (ZErr.comp (unsupportedFormatErr format)))

/-- Relative path of a walked file as a list of path components (deepest
directory names first, ending with the file name). `os.path.relpath(
os.path.join(root, file), start=input_path)` is the slash-join of these. -/
def joinComps (cs : List String) : String :=
  String.intercalate "/" cs

mutual

/-- Files found by `os.walk` under a tree, as (component list, bytes),
top-down: files of the current directory first, then each subdirectory in
order. -/
def walkC : DirTree → List (List String × Bytes)
  | DirTree.mk files subs =>
      files.map (fun e => ([e.1], e.2)) ++ walkCF subs

/-- Walk of a list of named subdirectories, prefixing each result with the
subdirectory name. -/
def walkCF : List (String × DirTree) → List (List String × Bytes)
  | [] => []
  | (n, t) :: rest => (walkC t).map (fun e => (n :: e.1, e.2)) ++ walkCF rest

end

/-- Files found by `os.walk` with their slash-joined relative archive names
(`arcname = os.path.relpath(file_path, start=input_path)`), in walk order. -/
def walkTree (t : DirTree) : List (String × Bytes) :=
  (walkC t).map (fun e => (joinComps e.1, e.2))

/-- Tree walked by `compress_directory`: the tree stored at the input path
if it is a directory; `os.walk` of anything else yields nothing. -/
def dirTreeAt (fs : FS) (p : String) : DirTree :=
  match FS.lookup fs p with
  | some (FSEntry.dir t) => t
  | _ => DirTree.mk [] []

/-- Compress a directory (`compress_directory`). Validations run first;
`tar` and `zip` archive every walked file under its relative path, the
`zst` placeholder appends the raw bytes of every walked file to one flat
output file, and any other format raises `Unsupported format for
directories`. -/
def compress_directory (env : CodecEnv) (fs : FS) (input_path output_path format : String) :
    FS × Option ZErr :=
  match validate_input_path fs input_path with
  | some e => (fs, some (ZErr.comp e))
  | none =>
  match validate_output_path fs output_path with
  | some e => (fs, some (ZErr.comp e))
  | none =>
    if format = "tar" then
      (writeFile fs output_path (env.tarPack (walkTree (dirTreeAt fs input_path))), none)
    else if format = "zip" then
      (writeFile fs output_path (env.zipPack none (walkTree (dirTreeAt fs input_path))), none)
    else if format = "zst" then
      (writeFile fs output_path
        ((walkTree (dirTreeAt fs input_path)).foldl (fun acc e => acc ++ e.2) []), none)
    else (fs, some (ZErr.comp (unsupportedDirFormatErr format)))

/-- Extraction of archive entries into a target directory (`extractall`):
each entry is materialised at `output_path/<entry name>`. -/
def extractAll (fs : FS) (output_path : String) (es : List (String × Bytes)) : FS :=
  es.foldl (fun acc e => writeFile acc (output_path ++ "/" ++ e.1) e.2) fs

/-- Decompress a file (`decompress`). Validations run first, then the
suffix dispatch chain in source order: `.gz`, `.xz`, `.bz2`, `.zip`,
`.tar`, `.zst`, else `Unsupported format`. Single-file codecs write the
decoded bytes to the output file; `.zip` and `.tar` extract all entries
under the output path; `.zst` is an identity byte copy. -/
def decompress (env : CodecEnv) (fs : FS) (input_path output_path : String) :
    FS × Option ZErr :=
  match validate_input_path fs input_path with
  | some e => (fs, some (ZErr.comp e))
  | none =>
  match validate_output_path fs output_path with
  | some e => (fs, some (ZErr.comp e))
  | none =>
    if strEndsWith input_path ".gz" then
      match readFile fs input_path with
      | none => (fs, some (ZErr.io ("not a readable regular file: " ++ input_path)))
      | some c =>
        match env.gzDec c with
        | none => (fs, some (ZErr.io "invalid gzip data"))
        | some d => (writeFile fs output_path d, none)
    else if strEndsWith input_path ".xz" then
      match readFile fs input_path with
      | none => (fs, some (ZErr.io ("not a readable regular file: " ++ input_path)))
      | some c =>
        match env.xzDec c with
        | none => (fs, some (ZErr.io "invalid xz data"))
        | some d => (writeFile fs output_path d, none)
    else if strEndsWith input_path ".bz2" then
      match readFile fs input_path with
      | none => (fs, some (ZErr.io ("not a readable regular file: " ++ input_path)))
      | some c =>
        match env.bz2Dec c with
        | none => (fs, some (ZErr.io "invalid bz2 data"))
        | some d => (writeFile fs output_path d, none)
    else if strEndsWith input_path ".zip" then
      match readFile fs input_path with
      | none => (fs, some (ZErr.io ("not a readable regular file: " ++ input_path)))
      | some c =>
        match env.zipUnpack c with
        | none => (fs, some (ZErr.io "invalid zip data"))
        | some es => (extractAll fs output_path es, none)
    else if strEndsWith input_path ".tar" then
      match readFile fs input_path with
      | none => (fs, some (ZErr.io ("not a readable regular file: " ++ input_path)))
      | some c =>
        match env.tarUnpack c with
        | none => (fs, some (ZErr.io "invalid tar data"))
        | some es => (extractAll fs output_path es, none)
    else if strEndsWith input_path ".zst" then
      match readFile fs input_path with
      | none => (fs, some (ZErr.io ("not a readable regular file: " ++ input_path)))
      | some c => (writeFile fs output_path c, none)
    else (fs, some (ZErr.comp (unsupportedFormatErr input_path)))

/-- Format that the decompression dispatch chain selects for a path: the
first of the six suffix tests that matches, in source order. -/
def detectFormat (p : String) : Option String :=
  if strEndsWith p ".gz" then some "gz"
  else if strEndsWith p ".xz" then some "xz"
  else if strEndsWith p ".bz2" then some "bz2"
  else if strEndsWith p ".zip" then some "zip"
  else if strEndsWith p ".tar" then some "tar"
  else if strEndsWith p ".zst" then some "zst"
  else none

/-- Parsed command-line arguments of `main`. -/
structure Args where
  compress : Bool
  decompress : Bool
  input : String
  output : String
  format : String
  level : Nat
  verbose : Bool

/-- Operation the CLI dispatcher performed in one invocation. -/
inductive OpKind where
  | compressDirOp
  | compressFileOp
  | decompressOp
  | helpOp
deriving DecidableEq

/-- Python `Path.is_dir()`: true only for an existing directory. -/
def isDir (fs : FS) (p : String) : Bool :=
  match FS.lookup fs p with
  | some (FSEntry.dir _) => true
  | _ => false

/-- Process exit code: 0 when no error was raised, 1 when the operation
raised (the `except CompressionError` handler calls `sys.exit(1)`, and an
uncaught I/O error also terminates the process unsuccessfully). -/
def exitCodeOf : Option ZErr → Nat
  | none => 0
  | some _ => 1

/-- CLI dispatcher (`main` after argument parsing): `--compress` routes on
whether the input is a directory, otherwise `--decompress` decompresses,
otherwise the help text is printed and the process exits successfully.
The result is (exit code, filesystem after the call, operations performed);
the name `main` itself is reserved in Lean. -/
def mainCli (env : CodecEnv) (fs : FS) (a : Args) : Nat × FS × List OpKind :=
  if a.compress then
    if isDir fs a.input then
      let r := compress_directory env fs a.input a.output a.format
      (exitCodeOf r.2, r.1, [OpKind.compressDirOp])
    else
      let r := compress_file env fs a.input a.output a.format a.level
      (exitCodeOf r.2, r.1, [OpKind.compressFileOp])
  else if a.decompress then
    let r := decompress env fs a.input a.output
    (exitCodeOf r.2, r.1, [OpKind.decompressOp])
  else (0, fs, [OpKind.helpOp])

/-- A file sits in a tree at a relative component path: either directly at
this level, or inside a named subdirectory. -/
inductive HasFileAt : DirTree → List String → Bytes → Prop where
  | here {files subs name b} : (name, b) ∈ files →
      HasFileAt (DirTree.mk files subs) [name] b
  | there {files subs d sub cs b} : (d, sub) ∈ subs → HasFileAt sub cs b →
      HasFileAt (DirTree.mk files subs) (d :: cs) b

/-- Path at which a compress-then-decompress round trip makes the original
content reappear: the decompression output itself for the single-file
codecs, or the extracted entry under it for the archive formats, whose
decompression extracts into a directory. -/
def recoveredPath (format input_path out2 : String) : String :=
  if format = "zip" ∨ format = "tar" then out2 ++ "/" ++ basename input_path else out2

/-- Key of an archive entry for the reference archive codec: the entry
name as character codes together with the entry bytes. -/
def entKey (e : String × Bytes) : List Nat × List Nat :=
  (e.1.data.map Char.toNat, e.2)

/-- Inverse of `entKey`. -/
def entUnkey (p : List Nat × List Nat) : String × Bytes :=
  (String.mk (p.1.map Char.ofNat), p.2)

/-- Reference archive encoder used to witness the abstract codec laws: the
entry list is encoded into one number. -/
def packW (es : List (String × Bytes)) : Bytes :=
  [Encodable.encode (es.map entKey)]

/-- Reference archive decoder matching `packW`. -/
def unpackW (b : Bytes) : Option (List (String × Bytes)) :=
  match b with
  | [n] => (Encodable.decode n : Option (List (List Nat × List Nat))).map (fun l => l.map entUnkey)
  | _ => none

/-- Concrete codec environment used by the witnesses: identity single-file
codecs and the reference archive codec. -/
def witEnv : CodecEnv where
  gzEnc := fun _ b => b
  gzDec := fun b => some b
  xzEnc := fun _ b => b
  xzDec := fun b => some b
  bz2Enc := fun _ b => b
  bz2Dec := fun b => some b
  zipPack := fun _ es => packW es
  zipUnpack := unpackW
  tarPack := packW
  tarUnpack := unpackW

/-- Truncation to a 32-bit word. -/
def w32 (x : Nat) : Nat := x % 4294967296

/-- Right rotation of a 32-bit word by `n` places. -/
def rotr32 (n x : Nat) : Nat := x / 2 ^ n + x % 2 ^ n * 2 ^ (32 - n)

/-- Logical right shift of a 32-bit word by `n` places. -/
def shr32 (n x : Nat) : Nat := x / 2 ^ n

/-- Bitwise complement of a 32-bit word. -/
def not32 (x : Nat) : Nat := Nat.xor x 4294967295

/-- SHA-256 choice function. -/
def shaCh (x y z : Nat) : Nat := Nat.xor (Nat.land x y) (Nat.land (not32 x) z)

/-- SHA-256 majority function. -/
def shaMaj (x y z : Nat) : Nat :=
  Nat.xor (Nat.xor (Nat.land x y) (Nat.land x z)) (Nat.land y z)

/-- SHA-256 big sigma 0. -/
def bsig0 (x : Nat) : Nat := Nat.xor (Nat.xor (rotr32 2 x) (rotr32 13 x)) (rotr32 22 x)

/-- SHA-256 big sigma 1. -/
def bsig1 (x : Nat) : Nat := Nat.xor (Nat.xor (rotr32 6 x) (rotr32 11 x)) (rotr32 25 x)

/-- SHA-256 small sigma 0. -/
def ssig0 (x : Nat) : Nat := Nat.xor (Nat.xor (rotr32 7 x) (rotr32 18 x)) (shr32 3 x)

/-- SHA-256 small sigma 1. -/
def ssig1 (x : Nat) : Nat := Nat.xor (Nat.xor (rotr32 17 x) (rotr32 19 x)) (shr32 10 x)

/-- SHA-256 round constants. -/
def shaK : List Nat :=
  [1116352408, 1899447441, 3049323471, 3921009573, 961987163, 1508970993,
   2453635748, 2870763221, 3624381080, 310598401, 607225278, 1426881987,
   1925078388, 2162078206, 2614888103, 3248222580, 3835390401, 4022224774,
   264347078, 604807628, 770255983, 1249150122, 1555081692, 1996064986,
   2554220882, 2821834349, 2952996808, 3210313671, 3336571891, 3584528711,
   113926993, 338241895, 666307205, 773529912, 1294757372, 1396182291,
   1695183700, 1986661051, 2177026350, 2456956037, 2730485921, 2820302411,
   3259730800, 3345764771, 3516065817, 3600352804, 4094571909, 275423344,
   430227734, 506948616, 659060556, 883997877, 958139571, 1322822218,
   1537002063, 1747873779, 1955562222, 2024104815, 2227730452, 2361852424,
   2428436474, 2756734187, 3204031479, 3329325298]

/-- SHA-256 initial hash words. -/
def shaH0 : List Nat :=
  [1779033703, 3144134277, 1013904242, 2773480762,
   1359893119, 2600822924, 528734635, 1541459225]

/-- Big-endian 32-bit words of a block of bytes. -/
def toWords : Bytes → List Nat
  | b0 :: b1 :: b2 :: b3 :: rest =>
      (((b0 * 256 + b1) * 256 + b2) * 256 + b3) :: toWords rest
  | _ => []

/-- One message-schedule extension step: append the next schedule word. -/
def schedStep (ws : List Nat) : List Nat :=
  ws ++ [w32 (ssig1 (ws.getD (ws.length - 2) 0) + ws.getD (ws.length - 7) 0 +
              ssig0 (ws.getD (ws.length - 15) 0) + ws.getD (ws.length - 16) 0)]

/-- Full 64-word message schedule from the 16 block words. -/
def schedule (ws : List Nat) : List Nat := Nat.repeat schedStep 48 ws

/-- One SHA-256 compression round on the eight working words. -/
def shaRound (st : List Nat) (kw : Nat × Nat) : List Nat :=
  match st with
  | [a, b, c, d, e, f, g, h] =>
      let t1 := w32 (h + bsig1 e + shaCh e f g + kw.1 + kw.2)
      let t2 := w32 (bsig0 a + shaMaj a b c)
      [w32 (t1 + t2), a, b, c, w32 (d + t1), e, f, g]
  | other => other

/-- SHA-256 compression of one 64-byte block into the running hash words. -/
def compressBlock (hs : List Nat) (block : Bytes) : List Nat :=
  let st := (shaK.zip (schedule (toWords block))).foldl shaRound hs
  List.zipWith (fun x y => w32 (x + y)) hs st

/-- Block-consumption loop with an explicit structural fuel so that it
reduces by computation; the fuel only needs to be at least the number of
complete 64-byte blocks in the buffer. -/
def processBlocksF (fuel : Nat) (hs : List Nat) (buf : Bytes) : List Nat × Bytes :=
  match fuel with
  | 0 => (hs, buf)
  | fuel + 1 =>
    if 64 ≤ buf.length then
      processBlocksF fuel (compressBlock hs (buf.take 64)) (buf.drop 64)
    else (hs, buf)

/-- Consume every complete 64-byte block of the buffer, returning the new
hash words and the remaining partial block. -/
def processBlocks (hs : List Nat) (buf : Bytes) : List Nat × Bytes :=
  processBlocksF buf.length hs buf

/-- Streaming hash accumulator state, as `hashlib` keeps it: current hash
words, buffered partial block, total bytes fed so far. -/
abbrev ShaState := List Nat × Bytes × Nat

/-- Fresh SHA-256 accumulator (`hashlib.new("sha256")`). -/
def shaInit : ShaState := (shaH0, [], 0)

/-- Feed bytes into the accumulator (`hash_algo.update(chunk)`). -/
def shaUpdate (s : ShaState) (bs : Bytes) : ShaState :=
  let p := processBlocks s.1 (s.2.1 ++ bs)
  (p.1, p.2, s.2.2 + bs.length)

/-- Big-endian 8-byte encoding of a 64-bit length. -/
def lenBytes8 (n : Nat) : Bytes :=
  [n / 2 ^ 56 % 256, n / 2 ^ 48 % 256, n / 2 ^ 40 % 256, n / 2 ^ 32 % 256,
   n / 2 ^ 24 % 256, n / 2 ^ 16 % 256, n / 2 ^ 8 % 256, n % 256]

/-- Final hash words after SHA-256 padding of the buffered tail. -/
def shaFinalize (s : ShaState) : List Nat :=
  let padZeros := (119 - s.2.1.length % 64) % 64
  let padded := s.2.1 ++ 128 :: List.replicate padZeros 0 ++ lenBytes8 (s.2.2 * 8)
  (processBlocks s.1 padded).1

/-- Big-endian bytes of a 32-bit word. -/
def wordToBytes (w : Nat) : Bytes :=
  [w / 2 ^ 24 % 256, w / 2 ^ 16 % 256, w / 2 ^ 8 % 256, w % 256]

/-- Lowercase hex character of a value below 16. -/
def hexChar (n : Nat) : Char :=
  if n < 10 then Char.ofNat (48 + n) else Char.ofNat (87 + n)

/-- Lowercase hex string of a byte sequence. -/
def bytesToHex (bs : Bytes) : String :=
  String.mk (bs.foldr (fun b acc => hexChar (b / 16) :: hexChar (b % 16) :: acc) [])

/-- Hex digest of a finished accumulator (`hash_algo.hexdigest()`). -/
def shaHexOfState (s : ShaState) : String :=
  bytesToHex (((shaFinalize s).map wordToBytes).flatten)

/-- Reference one-shot SHA-256 hex digest of a byte sequence. -/
def sha256Hex (bs : Bytes) : String :=
  shaHexOfState (shaUpdate shaInit bs)

/-- Chunking loop with an explicit structural fuel so that it reduces by
computation; the fuel only needs to be at least the number of chunks. -/
def chunksF : Nat → Bytes → List Bytes
  | 0, _ => []
  | _, [] => []
  | fuel + 1, b :: rest => ((b :: rest).take 4096) :: chunksF fuel ((b :: rest).drop 4096)

/-- Successive 4096-byte chunks yielded by `iter(lambda: f.read(4096), b"")`. -/
def chunks4096 (bs : Bytes) : List Bytes :=
  chunksF bs.length bs

/-- Checksum of a file (`calculate_checksum` with its default `sha256`
algorithm): the file is read in fixed 4096-byte chunks, each chunk is fed
to the streaming accumulator, and the lowercase hex digest is returned. -/
def calculate_checksum (fs : FS) (file_path : String) : Option String :=
  (readFile fs file_path).map
    (fun data => shaHexOfState ((chunks4096 data).foldl shaUpdate shaInit))

/-- Lookup finds the file just written. -/
theorem lookup_write_self (fs : FS) (p : String) (b : Bytes) :
    FS.lookup (writeFile fs p b) p = some (FSEntry.file b) := by
  simp [writeFile, FS.lookup]

/-- Lookup at another path is unaffected by a write. -/
theorem lookup_write_ne (fs : FS) (p q : String) (b : Bytes) (h : p ≠ q) :
    FS.lookup (writeFile fs p b) q = FS.lookup fs q := by
  simp [writeFile, FS.lookup, h]

/-- Reading back the file just written yields its content. -/
theorem readFile_write_self (fs : FS) (p : String) (b : Bytes) :
    readFile (writeFile fs p b) p = some b := by
  simp [readFile, lookup_write_self]

/-- Reading another path is unaffected by a write. -/
theorem readFile_write_ne (fs : FS) (p q : String) (b : Bytes) (h : p ≠ q) :
    readFile (writeFile fs p b) q = readFile fs q := by
  simp [readFile, lookup_write_ne fs p q b h]

/-- The file just written exists. -/
theorem pathExists_write_self (fs : FS) (p : String) (b : Bytes) :
    pathExists (writeFile fs p b) p = true := by
  simp [pathExists, lookup_write_self]

/-- Existence of another path is unaffected by a write. -/
theorem pathExists_write_ne (fs : FS) (p q : String) (b : Bytes) (h : p ≠ q) :
    pathExists (writeFile fs p b) q = pathExists fs q := by
  simp [pathExists, lookup_write_ne fs p q b h]

/-- A readable file exists. -/
theorem pathExists_of_readFile {fs : FS} {p : String} {d : Bytes}
    (h : readFile fs p = some d) : pathExists fs p = true := by
  unfold readFile at h
  unfold pathExists
  cases hl : FS.lookup fs p with
  | none => rw [hl] at h; cases h
  | some e => simp

/-- A path holding a directory exists. -/
theorem pathExists_of_lookup_dir {fs : FS} {p : String} {t : DirTree}
    (h : FS.lookup fs p = some (FSEntry.dir t)) : pathExists fs p = true := by
  simp [pathExists, h]

/-- Input validation passes on an existing path. -/
theorem validate_input_path_none {fs : FS} {p : String}
    (h : pathExists fs p = true) : validate_input_path fs p = none := by
  simp [validate_input_path, h]

/-- Input validation fails on a missing path with the path-not-found error. -/
theorem validate_input_path_some {fs : FS} {p : String}
    (h : pathExists fs p = false) :
    validate_input_path fs p = some (inputMissingErr p) := by
  simp [validate_input_path, h]

/-- Output validation passes on a fresh path. -/
theorem validate_output_path_none {fs : FS} {p : String}
    (h : pathExists fs p = false) : validate_output_path fs p = none := by
  simp [validate_output_path, h]

/-- Output validation fails on an existing path with the overwrite error. -/
theorem validate_output_path_some {fs : FS} {p : String}
    (h : pathExists fs p = true) :
    validate_output_path fs p = some (outputExistsErr p) := by
  simp [validate_output_path, h]

/-- Fuel does not matter once it covers the buffer length. -/
theorem processBlocksF_congr (f1 : Nat) :
    ∀ f2 hs (buf : Bytes), buf.length ≤ f1 → buf.length ≤ f2 →
      processBlocksF f1 hs buf = processBlocksF f2 hs buf := by
  induction f1 with
  | zero =>
    intro f2 hs buf h1 _
    have hb : buf = [] := List.length_eq_zero.mp (Nat.le_zero.mp h1)
    subst hb
    cases f2 <;> simp [processBlocksF]
  | succ k IH =>
    intro f2 hs buf h1 h2
    cases f2 with
    | zero =>
      have hb : buf = [] := List.length_eq_zero.mp (Nat.le_zero.mp h2)
      subst hb
      simp [processBlocksF]
    | succ m =>
      by_cases hc : 64 ≤ buf.length
      · simp only [processBlocksF, if_pos hc]
        apply IH
        · simp [List.length_drop]; omega
        · simp [List.length_drop]; omega
      · simp only [processBlocksF, if_neg hc]

/-- One unfolding of the block loop when a complete block is available. -/
theorem processBlocks_step {buf : Bytes} (hs : List Nat) (hc : 64 ≤ buf.length) :
    processBlocks hs buf = processBlocks (compressBlock hs (buf.take 64)) (buf.drop 64) := by
  unfold processBlocks
  obtain ⟨k, hk⟩ : ∃ k, buf.length = k + 1 := ⟨buf.length - 1, by omega⟩
  rw [hk]
  simp only [processBlocksF, if_pos hc]
  apply processBlocksF_congr
  · simp [List.length_drop]; omega
  · simp [List.length_drop]

/-- The block loop is the identity on a partial block. -/
theorem processBlocks_small {buf : Bytes} (hs : List Nat) (hc : ¬ 64 ≤ buf.length) :
    processBlocks hs buf = (hs, buf) := by
  unfold processBlocks
  cases hk : buf.length with
  | zero => simp [processBlocksF]
  | succ m => simp only [processBlocksF]; rw [if_neg (hk ▸ hc)]

/-- Feeding the loop a buffer extended on the right first consumes the
blocks of the original buffer. -/
theorem processBlocks_append (x y : Bytes) (hs : List Nat) :
    processBlocks hs (x ++ y) =
      processBlocks (processBlocks hs x).1 ((processBlocks hs x).2 ++ y) := by
  by_cases hc : 64 ≤ x.length
  · have hcxy : 64 ≤ (x ++ y).length := by
      simp [List.length_append]; omega
    have htake : (x ++ y).take 64 = x.take 64 := by
      rw [List.take_append_eq_append_take, Nat.sub_eq_zero_of_le hc]
      simp
    have hdrop : (x ++ y).drop 64 = x.drop 64 ++ y := by
      rw [List.drop_append_eq_append_drop, Nat.sub_eq_zero_of_le hc]
      simp
    rw [processBlocks_step hs hcxy, htake, hdrop,
        processBlocks_step hs hc]
    exact processBlocks_append (x.drop 64) y (compressBlock hs (x.take 64))
  · rw [processBlocks_small hs hc]
termination_by x.length
decreasing_by simp [List.length_drop]; omega

/-- Updating the accumulator twice is updating once with the concatenation:
the streaming `update` is a monoid action of byte concatenation. -/
theorem shaUpdate_append (s : ShaState) (a b : Bytes) :
    shaUpdate (shaUpdate s a) b = shaUpdate s (a ++ b) := by
  unfold shaUpdate
  have h := processBlocks_append (s.2.1 ++ a) b s.1
  rw [List.append_assoc] at h
  rw [h]
  simp [List.length_append, Nat.add_assoc]

/-- Folding the accumulator over a chunk list hashes the concatenation. -/
theorem foldl_shaUpdate (l : List Bytes) :
    ∀ (s : ShaState) (bs : Bytes),
      l.foldl shaUpdate (shaUpdate s bs) = shaUpdate s (bs ++ l.flatten) := by
  induction l with
  | nil => intro s bs; simp
  | cons c rest IH =>
    intro s bs
    simp only [List.foldl_cons, List.flatten_cons]
    rw [shaUpdate_append s bs c, IH (s) (bs ++ c)]
    simp [List.append_assoc]

/-- Chunking with sufficient fuel splits the byte list without loss. -/
theorem chunksF_flatten (fuel : Nat) :
    ∀ bs : Bytes, bs.length ≤ fuel → (chunksF fuel bs).flatten = bs := by
  induction fuel with
  | zero =>
    intro bs h
    have hb : bs = [] := List.length_eq_zero.mp (Nat.le_zero.mp h)
    subst hb
    simp [chunksF]
  | succ k IH =>
    intro bs h
    cases bs with
    | nil => simp [chunksF]
    | cons b rest =>
      simp only [chunksF, List.flatten_cons]
      rw [IH ((b :: rest).drop 4096) (by simp [List.length_drop] at h ⊢; omega)]
      exact List.take_append_drop 4096 (b :: rest)

/-- The 4096-byte chunks concatenate back to the original bytes. -/
theorem chunks4096_flatten (bs : Bytes) : (chunks4096 bs).flatten = bs :=
  chunksF_flatten bs.length bs le_rfl

/-- Strings with different fixed prefixes stay different under any suffix:
if the first `n` characters differ, no choice of appended tails makes the
strings equal. -/
theorem append_left_ne (a b : String) (n : Nat) (hna : n ≤ a.data.length)
    (hnb : n ≤ b.data.length) (hne : a.data.take n ≠ b.data.take n)
    (p q : String) : a ++ p ≠ b ++ q := by
  intro h
  apply hne
  have hd : (a ++ p).data = (b ++ q).data := congrArg String.data h
  rw [String.data_append, String.data_append] at hd
  have ht := congrArg (List.take n) hd
  rw [List.take_append_eq_append_take, List.take_append_eq_append_take,
      Nat.sub_eq_zero_of_le hna, Nat.sub_eq_zero_of_le hnb] at ht
  simpa using ht

/-- Two `CompressionError` values built from distinct message prefixes are
distinct whatever is interpolated after the prefix. -/
theorem compErrNe (a b : String) (n : Nat) (hna : n ≤ a.data.length)
    (hnb : n ≤ b.data.length) (hne : a.data.take n ≠ b.data.take n)
    (p q : String) :
    (CompressionError.mk (a ++ p)) ≠ (CompressionError.mk (b ++ q)) :=
  fun h => append_left_ne a b n hna hnb hne p q (congrArg CompressionError.msg h)

/-- Dispatch selects gz exactly when the gz suffix test fires. -/
theorem detectFormat_gz {p : String} (h : detectFormat p = some "gz") :
    strEndsWith p ".gz" = true := by
  unfold detectFormat at h
  split_ifs at h <;> simp_all

/-- Dispatch selects xz exactly when the gz test fails and the xz test fires. -/
theorem detectFormat_xz {p : String} (h : detectFormat p = some "xz") :
    strEndsWith p ".gz" = false ∧ strEndsWith p ".xz" = true := by
  unfold detectFormat at h
  split_ifs at h <;> simp_all

/-- Dispatch selects bz2 exactly when the earlier tests fail and bz2 fires. -/
theorem detectFormat_bz2 {p : String} (h : detectFormat p = some "bz2") :
    strEndsWith p ".gz" = false ∧ strEndsWith p ".xz" = false ∧
    strEndsWith p ".bz2" = true := by
  unfold detectFormat at h
  split_ifs at h <;> simp_all

/-- Dispatch selects zip exactly when the earlier tests fail and zip fires. -/
theorem detectFormat_zip {p : String} (h : detectFormat p = some "zip") :
    strEndsWith p ".gz" = false ∧ strEndsWith p ".xz" = false ∧
    strEndsWith p ".bz2" = false ∧ strEndsWith p ".zip" = true := by
  unfold detectFormat at h
  split_ifs at h <;> simp_all

/-- Dispatch selects tar exactly when the earlier tests fail and tar fires. -/
theorem detectFormat_tar {p : String} (h : detectFormat p = some "tar") :
    strEndsWith p ".gz" = false ∧ strEndsWith p ".xz" = false ∧
    strEndsWith p ".bz2" = false ∧ strEndsWith p ".zip" = false ∧
    strEndsWith p ".tar" = true := by
  unfold detectFormat at h
  split_ifs at h <;> simp_all

/-- Dispatch selects zst exactly when the earlier tests fail and zst fires. -/
theorem detectFormat_zst {p : String} (h : detectFormat p = some "zst") :
    strEndsWith p ".gz" = false ∧ strEndsWith p ".xz" = false ∧
    strEndsWith p ".bz2" = false ∧ strEndsWith p ".zip" = false ∧
    strEndsWith p ".tar" = false ∧ strEndsWith p ".zst" = true := by
  unfold detectFormat at h
  split_ifs at h <;> simp_all

/-- Dispatch selects nothing exactly when all six suffix tests fail. -/
theorem detectFormat_none {p : String} (h : detectFormat p = none) :
    strEndsWith p ".gz" = false ∧ strEndsWith p ".xz" = false ∧
    strEndsWith p ".bz2" = false ∧ strEndsWith p ".zip" = false ∧
    strEndsWith p ".tar" = false ∧ strEndsWith p ".zst" = false := by
  unfold detectFormat at h
  split_ifs at h
  simp_all

/-- Compressing a file with a missing input fails first with the
path-not-found error, leaving the filesystem unchanged. -/
theorem compress_file_missing_input (env : CodecEnv) {fs : FS} {i : String}
    (o f : String) (l : Nat) (h : pathExists fs i = false) :
    compress_file env fs i o f l = (fs, some (ZErr.comp (inputMissingErr i))) := by
  simp [compress_file, validate_input_path_some h]

/-- Compressing a file onto an existing output fails with the overwrite
error, leaving the filesystem unchanged. -/
theorem compress_file_output_exists (env : CodecEnv) {fs : FS} {i o : String}
    (f : String) (l : Nat) (hi : pathExists fs i = true)
    (ho : pathExists fs o = true) :
    compress_file env fs i o f l = (fs, some (ZErr.comp (outputExistsErr o))) := by
  simp [compress_file, validate_input_path_none hi, validate_output_path_some ho]

/-- Compressing a readable file to a fresh output in gz format writes the
gzip encoding of its content. -/
theorem compress_file_gz (env : CodecEnv) {fs : FS} {i o : String} {data : Bytes}
    (l : Nat) (hread : readFile fs i = some data) (ho : pathExists fs o = false) :
    compress_file env fs i o "gz" l = (writeFile fs o (env.gzEnc l data), none) := by
  simp [compress_file, validate_input_path_none (pathExists_of_readFile hread),
        validate_output_path_none ho, hread]

/-- Compressing a readable file to a fresh output in xz format writes the
xz encoding of its content. -/
theorem compress_file_xz (env : CodecEnv) {fs : FS} {i o : String} {data : Bytes}
    (l : Nat) (hread : readFile fs i = some data) (ho : pathExists fs o = false) :
    compress_file env fs i o "xz" l = (writeFile fs o (env.xzEnc l data), none) := by
  simp [compress_file, validate_input_path_none (pathExists_of_readFile hread),
        validate_output_path_none ho, hread]

/-- Compressing a readable file to a fresh output in bz2 format writes the
bz2 encoding of its content. -/
theorem compress_file_bz2 (env : CodecEnv) {fs : FS} {i o : String} {data : Bytes}
    (l : Nat) (hread : readFile fs i = some data) (ho : pathExists fs o = false) :
    compress_file env fs i o "bz2" l = (writeFile fs o (env.bz2Enc l data), none) := by
  simp [compress_file, validate_input_path_none (pathExists_of_readFile hread),
        validate_output_path_none ho, hread]

/-- Compressing a readable file to a fresh output in zip format writes a
single-entry archive named by the input's base name. -/
theorem compress_file_zip (env : CodecEnv) {fs : FS} {i o : String} {data : Bytes}
    (l : Nat) (hread : readFile fs i = some data) (ho : pathExists fs o = false) :
    compress_file env fs i o "zip" l =
      (writeFile fs o (env.zipPack (some l) [(basename i, data)]), none) := by
  simp [compress_file, validate_input_path_none (pathExists_of_readFile hread),
        validate_output_path_none ho, hread]

/-- Compressing a readable file to a fresh output in tar format writes a
single-entry archive named by the input's base name. -/
theorem compress_file_tar (env : CodecEnv) {fs : FS} {i o : String} {data : Bytes}
    (l : Nat) (hread : readFile fs i = some data) (ho : pathExists fs o = false) :
    compress_file env fs i o "tar" l =
      (writeFile fs o (env.tarPack [(basename i, data)]), none) := by
  simp [compress_file, validate_input_path_none (pathExists_of_readFile hread),
        validate_output_path_none ho, hread]

/-- Compressing a readable file to a fresh output in the zst placeholder
format copies the input bytes unchanged. -/
theorem compress_file_zst (env : CodecEnv) {fs : FS} {i o : String} {data : Bytes}
    (l : Nat) (hread : readFile fs i = some data) (ho : pathExists fs o = false) :
    compress_file env fs i o "zst" l = (writeFile fs o data, none) := by
  simp [compress_file, validate_input_path_none (pathExists_of_readFile hread),
        validate_output_path_none ho, hread]

/-- Compressing a readable file with an unknown format tag fails with the
unsupported-format error after both validations and the read. -/
theorem compress_file_bad_format (env : CodecEnv) {fs : FS} {i o f : String}
    {data : Bytes} (l : Nat) (hread : readFile fs i = some data)
    (ho : pathExists fs o = false)
    (hf : f ∉ (["gz", "xz", "bz2", "zip", "tar", "zst"] : List String)) :
    compress_file env fs i o f l = (fs, some (ZErr.comp (unsupportedFormatErr f))) := by
  simp only [List.mem_cons, List.mem_singleton, not_or] at hf
  obtain ⟨h1, h2, h3, h4, h5, h6⟩ := hf
  simp [compress_file, validate_input_path_none (pathExists_of_readFile hread),
        validate_output_path_none ho, hread, h1, h2, h3, h4, h5, h6]

/-- Compressing a directory with a missing input fails first with the
path-not-found error, leaving the filesystem unchanged. -/
theorem compress_directory_missing_input (env : CodecEnv) {fs : FS} {i : String}
    (o f : String) (h : pathExists fs i = false) :
    compress_directory env fs i o f = (fs, some (ZErr.comp (inputMissingErr i))) := by
  simp [compress_directory, validate_input_path_some h]

/-- Compressing a directory onto an existing output fails with the
overwrite error, leaving the filesystem unchanged. -/
theorem compress_directory_output_exists (env : CodecEnv) {fs : FS} {i o : String}
    (f : String) (hi : pathExists fs i = true) (ho : pathExists fs o = true) :
    compress_directory env fs i o f = (fs, some (ZErr.comp (outputExistsErr o))) := by
  simp [compress_directory, validate_input_path_none hi, validate_output_path_some ho]

/-- Archiving a directory in tar format writes the tar packing of the
walked files under their relative names. -/
theorem compress_directory_tar (env : CodecEnv) {fs : FS} {i o : String}
    (hi : pathExists fs i = true) (ho : pathExists fs o = false) :
    compress_directory env fs i o "tar" =
      (writeFile fs o (env.tarPack (walkTree (dirTreeAt fs i))), none) := by
  simp [compress_directory, validate_input_path_none hi, validate_output_path_none ho]

/-- Archiving a directory in zip format writes the zip packing of the
walked files under their relative names, with no explicit level. -/
theorem compress_directory_zip (env : CodecEnv) {fs : FS} {i o : String}
    (hi : pathExists fs i = true) (ho : pathExists fs o = false) :
    compress_directory env fs i o "zip" =
      (writeFile fs o (env.zipPack none (walkTree (dirTreeAt fs i))), none) := by
  simp [compress_directory, validate_input_path_none hi, validate_output_path_none ho]

/-- Archiving a directory in the zst placeholder format appends the raw
bytes of every walked file into one flat output file. -/
theorem compress_directory_zst (env : CodecEnv) {fs : FS} {i o : String}
    (hi : pathExists fs i = true) (ho : pathExists fs o = false) :
    compress_directory env fs i o "zst" =
      (writeFile fs o
        ((walkTree (dirTreeAt fs i)).foldl (fun acc e => acc ++ e.2) []), none) := by
  simp [compress_directory, validate_input_path_none hi, validate_output_path_none ho]

/-- Archiving a directory with any other format tag fails with the
directory-specific unsupported-format error, leaving the filesystem
unchanged. -/
theorem compress_directory_bad_format (env : CodecEnv) {fs : FS} {i o f : String}
    (hi : pathExists fs i = true) (ho : pathExists fs o = false)
    (hf : f ∉ (["tar", "zip", "zst"] : List String)) :
    compress_directory env fs i o f =
      (fs, some (ZErr.comp (unsupportedDirFormatErr f))) := by
  simp only [List.mem_cons, List.mem_singleton, not_or] at hf
  obtain ⟨h1, h2, h3⟩ := hf
  simp [compress_directory, validate_input_path_none hi, validate_output_path_none ho,
        h1, h2, h3]

/-- Decompressing a missing input fails first with the path-not-found
error, leaving the filesystem unchanged. -/
theorem decompress_missing_input (env : CodecEnv) {fs : FS} {i : String}
    (o : String) (h : pathExists fs i = false) :
    decompress env fs i o = (fs, some (ZErr.comp (inputMissingErr i))) := by
  simp [decompress, validate_input_path_some h]

/-- Decompressing onto an existing output fails with the overwrite error,
leaving the filesystem unchanged. -/
theorem decompress_output_exists (env : CodecEnv) {fs : FS} {i o : String}
    (hi : pathExists fs i = true) (ho : pathExists fs o = true) :
    decompress env fs i o = (fs, some (ZErr.comp (outputExistsErr o))) := by
  simp [decompress, validate_input_path_none hi, validate_output_path_some ho]

/-- Decompressing a readable gz-suffixed file whose content the gzip codec
accepts writes the decoded bytes to the output file. -/
theorem decompress_gz (env : CodecEnv) {fs : FS} {i o : String} {c d : Bytes}
    (ho : pathExists fs o = false) (hs1 : strEndsWith i ".gz" = true)
    (hread : readFile fs i = some c) (hdec : env.gzDec c = some d) :
    decompress env fs i o = (writeFile fs o d, none) := by
  simp [decompress, validate_input_path_none (pathExists_of_readFile hread),
        validate_output_path_none ho, hs1, hread, hdec]

/-- Decompressing a readable xz-suffixed file whose content the xz codec
accepts writes the decoded bytes to the output file. -/
theorem decompress_xz (env : CodecEnv) {fs : FS} {i o : String} {c d : Bytes}
    (ho : pathExists fs o = false) (hs1 : strEndsWith i ".gz" = false)
    (hs2 : strEndsWith i ".xz" = true)
    (hread : readFile fs i = some c) (hdec : env.xzDec c = some d) :
    decompress env fs i o = (writeFile fs o d, none) := by
  simp [decompress, validate_input_path_none (pathExists_of_readFile hread),
        validate_output_path_none ho, hs1, hs2, hread, hdec]

/-- Decompressing a readable bz2-suffixed file whose content the bz2 codec
accepts writes the decoded bytes to the output file. -/
theorem decompress_bz2 (env : CodecEnv) {fs : FS} {i o : String} {c d : Bytes}
    (ho : pathExists fs o = false) (hs1 : strEndsWith i ".gz" = false)
    (hs2 : strEndsWith i ".xz" = false) (hs3 : strEndsWith i ".bz2" = true)
    (hread : readFile fs i = some c) (hdec : env.bz2Dec c = some d) :
    decompress env fs i o = (writeFile fs o d, none) := by
  simp [decompress, validate_input_path_none (pathExists_of_readFile hread),
        validate_output_path_none ho, hs1, hs2, hs3, hread, hdec]

/-- Decompressing a readable zip-suffixed file whose content the zip
library accepts extracts every entry under the output path. -/
theorem decompress_zip (env : CodecEnv) {fs : FS} {i o : String} {c : Bytes}
    {es : List (String × Bytes)}
    (ho : pathExists fs o = false) (hs1 : strEndsWith i ".gz" = false)
    (hs2 : strEndsWith i ".xz" = false) (hs3 : strEndsWith i ".bz2" = false)
    (hs4 : strEndsWith i ".zip" = true)
    (hread : readFile fs i = some c) (hdec : env.zipUnpack c = some es) :
    decompress env fs i o = (extractAll fs o es, none) := by
  simp [decompress, validate_input_path_none (pathExists_of_readFile hread),
        validate_output_path_none ho, hs1, hs2, hs3, hs4, hread, hdec]

/-- Decompressing a readable tar-suffixed file whose content the tar
library accepts extracts every entry under the output path. -/
theorem decompress_tar (env : CodecEnv) {fs : FS} {i o : String} {c : Bytes}
    {es : List (String × Bytes)}
    (ho : pathExists fs o = false) (hs1 : strEndsWith i ".gz" = false)
    (hs2 : strEndsWith i ".xz" = false) (hs3 : strEndsWith i ".bz2" = false)
    (hs4 : strEndsWith i ".zip" = false) (hs5 : strEndsWith i ".tar" = true)
    (hread : readFile fs i = some c) (hdec : env.tarUnpack c = some es) :
    decompress env fs i o = (extractAll fs o es, none) := by
  simp [decompress, validate_input_path_none (pathExists_of_readFile hread),
        validate_output_path_none ho, hs1, hs2, hs3, hs4, hs5, hread, hdec]

/-- Decompressing a readable zst-suffixed file copies its bytes unchanged
to the output file. -/
theorem decompress_zst (env : CodecEnv) {fs : FS} {i o : String} {c : Bytes}
    (ho : pathExists fs o = false) (hs1 : strEndsWith i ".gz" = false)
    (hs2 : strEndsWith i ".xz" = false) (hs3 : strEndsWith i ".bz2" = false)
    (hs4 : strEndsWith i ".zip" = false) (hs5 : strEndsWith i ".tar" = false)
    (hs6 : strEndsWith i ".zst" = true)
    (hread : readFile fs i = some c) :
    decompress env fs i o = (writeFile fs o c, none) := by
  simp [decompress, validate_input_path_none (pathExists_of_readFile hread),
        validate_output_path_none ho, hs1, hs2, hs3, hs4, hs5, hs6, hread]

/-- Decompressing an existing input whose name matches none of the six
suffixes fails with the unsupported-format error carrying the input path,
leaving the filesystem unchanged. -/
theorem decompress_bad_suffix (env : CodecEnv) {fs : FS} {i o : String}
    (hi : pathExists fs i = true) (ho : pathExists fs o = false)
    (hdet : detectFormat i = none) :
    decompress env fs i o = (fs, some (ZErr.comp (unsupportedFormatErr i))) := by
  obtain ⟨h1, h2, h3, h4, h5, h6⟩ := detectFormat_none hdet
  simp [decompress, validate_input_path_none hi, validate_output_path_none ho,
        h1, h2, h3, h4, h5, h6]

mutual

/-- Every entry produced by the walk is a file somewhere in the tree. -/
theorem mem_walkC (t : DirTree) (e : List String × Bytes)
    (he : e ∈ walkC t) : HasFileAt t e.1 e.2 :=
  match t with
  | DirTree.mk files subs => by
    rw [walkC] at he
    rcases List.mem_append.mp he with hf | hsub
    · obtain ⟨x, hx, hex⟩ := List.mem_map.mp hf
      subst hex
      exact HasFileAt.here (by simpa using hx)
    · obtain ⟨n, s, cs, hmem, hcs, hhas⟩ := mem_walkCF subs e hsub
      rw [hcs]
      exact HasFileAt.there hmem hhas

/-- Every entry produced by walking a subdirectory list comes from one of
the named subdirectories, under that subdirectory's name. -/
theorem mem_walkCF (l : List (String × DirTree)) (e : List String × Bytes)
    (he : e ∈ walkCF l) :
    ∃ n s cs, (n, s) ∈ l ∧ e.1 = n :: cs ∧ HasFileAt s cs e.2 :=
  match l with
  | [] => by rw [walkCF] at he; cases he
  | (n, t) :: rest => by
    rw [walkCF] at he
    rcases List.mem_append.mp he with hhead | htail
    · obtain ⟨x, hx, hex⟩ := List.mem_map.mp hhead
      subst hex
      exact ⟨n, t, x.1, List.mem_cons_self _ _, rfl, mem_walkC t x hx⟩
    · obtain ⟨n', s, cs, hmem, hcs, hhas⟩ := mem_walkCF rest e htail
      exact ⟨n', s, cs, List.mem_cons_of_mem _ hmem, hcs, hhas⟩

end

/-- Every entry of the joined walk is a walked file under its slash-joined
relative component path. -/
theorem mem_walkTree {t : DirTree} {e : String × Bytes} (he : e ∈ walkTree t) :
    ∃ cs, e.1 = joinComps cs ∧ HasFileAt t cs e.2 := by
  obtain ⟨x, hx, hex⟩ := List.mem_map.mp he
  subst hex
  exact ⟨x.1, rfl, mem_walkC t x hx⟩

/-- An empty subdirectory contributes no entries to the walk. -/
theorem walkCF_empty_dir (n : String) (rest : List (String × DirTree)) :
    walkCF ((n, DirTree.mk [] []) :: rest) = walkCF rest := by
  rw [walkCF, walkC, walkCF]
  simp

/-- Appending file contents with a fold is concatenating them. -/
theorem foldl_append_snd (l : List (String × Bytes)) :
    ∀ acc : Bytes, l.foldl (fun a e => a ++ e.2) acc = acc ++ (l.map Prod.snd).flatten := by
  induction l with
  | nil => intro acc; simp
  | cons x rest IH =>
    intro acc
    simp only [List.foldl_cons, List.map_cons, List.flatten_cons]
    rw [IH (acc ++ x.2), List.append_assoc]

/-- Extracting a single-entry archive writes that one file under the
output path. -/
theorem extractAll_single (fs : FS) (o n : String) (b : Bytes) :
    extractAll fs o [(n, b)] = writeFile fs (o ++ "/" ++ n) b := rfl

/-- Decoding an entry key restores the entry. -/
theorem entUnkey_entKey (e : String × Bytes) : entUnkey (entKey e) = e := by
  obtain ⟨s, b⟩ := e
  have h : Char.ofNat ∘ Char.toNat = id := funext Char.ofNat_toNat
  simp only [entKey, entUnkey, List.map_map, h, List.map_id]

/-- The reference archive codec satisfies the round-trip law. -/
theorem unpackW_packW (es : List (String × Bytes)) :
    unpackW (packW es) = some es := by
  simp [packW, unpackW, List.map_map]
  have : entUnkey ∘ entKey = id := funext entUnkey_entKey
  simp [this]

/-- Claim C2: for every operation, a missing input path fails with the
path-not-found error and an already-existing output path fails with the
overwrite error, in both cases before any bytes are written, so the
returned filesystem is exactly the one the operation was given. -/
theorem spec_C2 (env : CodecEnv) (fs : FS) (i o f : String) (l : Nat) :
    (pathExists fs i = false →
      compress_file env fs i o f l = (fs, some (ZErr.comp (inputMissingErr i))) ∧
      compress_directory env fs i o f = (fs, some (ZErr.comp (inputMissingErr i))) ∧
      decompress env fs i o = (fs, some (ZErr.comp (inputMissingErr i)))) ∧
    (pathExists fs i = true → pathExists fs o = true →
      compress_file env fs i o f l = (fs, some (ZErr.comp (outputExistsErr o))) ∧
      compress_directory env fs i o f = (fs, some (ZErr.comp (outputExistsErr o))) ∧
      decompress env fs i o = (fs, some (ZErr.comp (outputExistsErr o)))) := by
  constructor
  · intro h
    exact ⟨compress_file_missing_input env o f l h,
           compress_directory_missing_input env o f h,
           decompress_missing_input env o h⟩
  · intro hi ho
    exact ⟨compress_file_output_exists env f l hi ho,
           compress_directory_output_exists env f hi ho,
           decompress_output_exists env hi ho⟩

/-- Witness for C2 at concrete inputs: a missing input and an existing
output each fail with the expected error and leave the filesystem intact. -/
theorem spec_C2_witness :
    compress_file witEnv [] "in.txt" "out.gz" "gz" 6 =
      ([], some (ZErr.comp (inputMissingErr "in.txt"))) ∧
    decompress witEnv [("a", FSEntry.file [1])] "a" "a" =
      ([("a", FSEntry.file [1])], some (ZErr.comp (outputExistsErr "a"))) :=
  ⟨((spec_C2 witEnv [] "in.txt" "out.gz" "gz" 6).1 rfl).1,
   ((spec_C2 witEnv [("a", FSEntry.file [1])] "a" "a" "gz" 6).2 rfl rfl).2.2⟩

/-- Claim C3: directory compression with a format outside tar, zip, zst
fails with the directory-specific unsupported-format error, an error value
different from every single-file unsupported-format error, and performs no
write (the filesystem is returned unchanged, with no single-file fallback). -/
theorem spec_C3 (env : CodecEnv) (fs : FS) (i o f : String)
    (hi : pathExists fs i = true) (ho : pathExists fs o = false)
    (hf : f ∉ (["tar", "zip", "zst"] : List String)) :
    compress_directory env fs i o f =
      (fs, some (ZErr.comp (unsupportedDirFormatErr f))) ∧
    ∀ q : String, unsupportedDirFormatErr f ≠ unsupportedFormatErr q := by
  refine ⟨compress_directory_bad_format env hi ho hf, fun q => ?_⟩
  exact compErrNe "Unsupported format for directories: " "Unsupported format: " 19
    (by decide) (by decide) (by decide) f q

/-- Witness for C3 at a concrete directory and the gz tag. -/
theorem spec_C3_witness :
    compress_directory witEnv [("d", FSEntry.dir (DirTree.mk [] []))] "d" "o" "gz" =
      ([("d", FSEntry.dir (DirTree.mk [] []))],
        some (ZErr.comp (unsupportedDirFormatErr "gz"))) ∧
    unsupportedDirFormatErr "gz" ≠ unsupportedFormatErr "gz" := by
  have h := spec_C3 witEnv [("d", FSEntry.dir (DirTree.mk [] []))] "d" "o" "gz"
    rfl rfl (by decide)
  exact ⟨h.1, h.2 "gz"⟩

/-- Claim C4: decompression dispatches only on a case-sensitive exact
suffix match; any existing input whose name ends in none of the six known
suffixes — the uppercase `data.GZ` among them — fails with the
unsupported-format error. -/
theorem spec_C4 (env : CodecEnv) (fs : FS) (i o : String)
    (hi : pathExists fs i = true) (ho : pathExists fs o = false)
    (hdet : detectFormat i = none) :
    decompress env fs i o = (fs, some (ZErr.comp (unsupportedFormatErr i))) ∧
    detectFormat "data.GZ" = none :=
  ⟨decompress_bad_suffix env hi ho hdet, by decide⟩

/-- Witness for C4 at the concrete uppercase input name. -/
theorem spec_C4_witness :
    decompress witEnv [("data.GZ", FSEntry.file [1, 2])] "data.GZ" "out" =
      ([("data.GZ", FSEntry.file [1, 2])],
        some (ZErr.comp (unsupportedFormatErr "data.GZ"))) :=
  (spec_C4 witEnv [("data.GZ", FSEntry.file [1, 2])] "data.GZ" "out"
    rfl rfl (by decide)).1

/-- Claim C5: directory compression in the zst placeholder format writes a
single output file whose content is exactly the concatenation of the raw
bytes of every walked file, in walk order, with nothing else added. -/
theorem spec_C5 (env : CodecEnv) (fs : FS) (i o : String) (t : DirTree)
    (hin : FS.lookup fs i = some (FSEntry.dir t)) (ho : pathExists fs o = false) :
    compress_directory env fs i o "zst" =
      (writeFile fs o (((walkTree t).map Prod.snd).flatten), none) := by
  have hi := pathExists_of_lookup_dir hin
  have ht : dirTreeAt fs i = t := by simp [dirTreeAt, hin]
  rw [compress_directory_zst env hi ho, ht, foldl_append_snd]
  simp

/-- Witness for C5 at a concrete two-level directory. -/
theorem spec_C5_witness :
    compress_directory witEnv
      [("d", FSEntry.dir (DirTree.mk [("a.txt", [1, 2])]
        [("sub", DirTree.mk [("b.txt", [3])] [])]))] "d" "o.zst" "zst" =
    (writeFile
      [("d", FSEntry.dir (DirTree.mk [("a.txt", [1, 2])]
        [("sub", DirTree.mk [("b.txt", [3])] [])]))] "o.zst"
      (((walkTree (DirTree.mk [("a.txt", [1, 2])]
        [("sub", DirTree.mk [("b.txt", [3])] [])])).map Prod.snd).flatten), none) :=
  spec_C5 witEnv _ "d" "o.zst" _ rfl rfl

/-- Claim C6: the checksum helper feeds fixed 4096-byte chunks into the
streaming accumulator and its digest equals the reference one-shot SHA-256
of the whole content; on the 3-byte content `abc` the digest is the
published SHA-256 value. -/
theorem spec_C6 :
    (∀ (fs : FS) (p : String) (data : Bytes), readFile fs p = some data →
      calculate_checksum fs p = some (sha256Hex data)) ∧
    sha256Hex [97, 98, 99] =
      "ba7816bf8f01cfea414140de5dae2223b00361a396177a9cb410ff61f20015ad" := by
  constructor
  · intro fs p data hread
    unfold calculate_checksum sha256Hex
    rw [hread]
    have hfold : (chunks4096 data).foldl shaUpdate shaInit = shaUpdate shaInit data := by
      have h0 : (chunks4096 data).foldl shaUpdate shaInit =
          (chunks4096 data).foldl shaUpdate (shaUpdate shaInit []) := rfl
      rw [h0, foldl_shaUpdate, List.nil_append, chunks4096_flatten]
    rw [Option.map_some', hfold]
  · decide

/-- Witness for C6 at a concrete file holding the bytes of `abc`. -/
theorem spec_C6_witness :
    calculate_checksum [("f.txt", FSEntry.file [97, 98, 99])] "f.txt" =
      some "ba7816bf8f01cfea414140de5dae2223b00361a396177a9cb410ff61f20015ad" := by
  rw [spec_C6.1 [("f.txt", FSEntry.file [97, 98, 99])] "f.txt" [97, 98, 99] rfl,
      spec_C6.2]

/-- Claim C7: for tar single-file compression the level parameter has no
effect — any two levels produce identical results — and a successful run
writes an archive holding exactly one entry named by the input's base
name with the input's bytes. -/
theorem spec_C7 (env : CodecEnv) (fs : FS) (i o : String) (l1 l2 : Nat) :
    compress_file env fs i o "tar" l1 = compress_file env fs i o "tar" l2 ∧
    (∀ data : Bytes, readFile fs i = some data → pathExists fs o = false →
      (∀ es, env.tarUnpack (env.tarPack es) = some es) →
      ∃ c : Bytes, compress_file env fs i o "tar" l1 = (writeFile fs o c, none) ∧
        env.tarUnpack c = some [(basename i, data)]) := by
  constructor
  · rfl
  · intro data hread ho htar
    exact ⟨env.tarPack [(basename i, data)], compress_file_tar env l1 hread ho, htar _⟩

/-- Witness for C7 at a concrete file and the levels 1 and 9. -/
theorem spec_C7_witness :
    compress_file witEnv [("d/in.txt", FSEntry.file [1, 2, 3])]
        "d/in.txt" "out.tar" "tar" 1 =
      compress_file witEnv [("d/in.txt", FSEntry.file [1, 2, 3])]
        "d/in.txt" "out.tar" "tar" 9 ∧
    ∃ c : Bytes,
      compress_file witEnv [("d/in.txt", FSEntry.file [1, 2, 3])]
          "d/in.txt" "out.tar" "tar" 1 =
        (writeFile [("d/in.txt", FSEntry.file [1, 2, 3])] "out.tar" c, none) ∧
      witEnv.tarUnpack c = some [(basename "d/in.txt", [1, 2, 3])] :=
  ⟨(spec_C7 witEnv [("d/in.txt", FSEntry.file [1, 2, 3])] "d/in.txt" "out.tar" 1 9).1,
   (spec_C7 witEnv [("d/in.txt", FSEntry.file [1, 2, 3])] "d/in.txt" "out.tar" 1 9).2
     [1, 2, 3] rfl rfl (fun es => unpackW_packW es)⟩

/-- Claim C8: one CLI invocation performs at most one kind of operation —
never a compression and a decompression together — and when neither flag
is set it performs no operation at all: the help action is the only one,
the filesystem is untouched, and the exit code is 0. -/
theorem spec_C8 (env : CodecEnv) (fs : FS) (a : Args) :
    (¬ (OpKind.decompressOp ∈ (mainCli env fs a).2.2 ∧
        (OpKind.compressFileOp ∈ (mainCli env fs a).2.2 ∨
         OpKind.compressDirOp ∈ (mainCli env fs a).2.2))) ∧
    (a.compress = false → a.decompress = false →
      mainCli env fs a = (0, fs, [OpKind.helpOp])) := by
  constructor
  · cases hc : a.compress with
    | true =>
      cases hd : isDir fs a.input with
      | true => simp [mainCli, hc, hd]
      | false => simp [mainCli, hc, hd]
    | false =>
      cases hd : a.decompress with
      | true => simp [mainCli, hc, hd]
      | false => simp [mainCli, hc, hd]
  · intro h1 h2
    simp [mainCli, h1, h2]

/-- Witness for C8 with both flags cleared. -/
theorem spec_C8_witness :
    mainCli witEnv [] (Args.mk false false "i" "o" "gz" 6 false) =
      (0, [], [OpKind.helpOp]) :=
  (spec_C8 witEnv [] (Args.mk false false "i" "o" "gz" 6 false)).2 rfl rfl

/-- Claim C9: directory archiving in tar or zip packs exactly the walked
files — every archive entry is a file somewhere under the input directory,
at its slash-joined relative path — and empty subdirectories contribute no
entries, so they are not preserved in the archive. -/
theorem spec_C9 (env : CodecEnv) (fs : FS) (i o : String) (t : DirTree)
    (hin : FS.lookup fs i = some (FSEntry.dir t)) (ho : pathExists fs o = false)
    (htar : ∀ es, env.tarUnpack (env.tarPack es) = some es)
    (hzip : ∀ l es, env.zipUnpack (env.zipPack l es) = some es) :
    (compress_directory env fs i o "tar" =
        (writeFile fs o (env.tarPack (walkTree t)), none) ∧
      env.tarUnpack (env.tarPack (walkTree t)) = some (walkTree t)) ∧
    (compress_directory env fs i o "zip" =
        (writeFile fs o (env.zipPack none (walkTree t)), none) ∧
      env.zipUnpack (env.zipPack none (walkTree t)) = some (walkTree t)) ∧
    (∀ e ∈ walkTree t, ∃ cs, e.1 = joinComps cs ∧ HasFileAt t cs e.2) ∧
    (∀ (n : String) (rest : List (String × DirTree)),
      walkCF ((n, DirTree.mk [] []) :: rest) = walkCF rest) := by
  have hi := pathExists_of_lookup_dir hin
  have ht : dirTreeAt fs i = t := by simp [dirTreeAt, hin]
  refine ⟨⟨?_, htar _⟩, ⟨?_, hzip _ _⟩, fun e he => mem_walkTree he, walkCF_empty_dir⟩
  · rw [compress_directory_tar env hi ho, ht]
  · rw [compress_directory_zip env hi ho, ht]

/-- Witness for C9 at a concrete directory containing a file and an empty
subdirectory. -/
theorem spec_C9_witness :
    (compress_directory witEnv
        [("d", FSEntry.dir (DirTree.mk [("a.txt", [5])]
          [("empty", DirTree.mk [] [])]))] "d" "o.tar" "tar" =
      (writeFile
        [("d", FSEntry.dir (DirTree.mk [("a.txt", [5])]
          [("empty", DirTree.mk [] [])]))] "o.tar"
        (witEnv.tarPack (walkTree (DirTree.mk [("a.txt", [5])]
          [("empty", DirTree.mk [] [])]))), none) ∧
      witEnv.tarUnpack (witEnv.tarPack (walkTree (DirTree.mk [("a.txt", [5])]
        [("empty", DirTree.mk [] [])]))) =
        some (walkTree (DirTree.mk [("a.txt", [5])] [("empty", DirTree.mk [] [])]))) ∧
    (∀ e ∈ walkTree (DirTree.mk [("a.txt", [5])] [("empty", DirTree.mk [] [])]),
      ∃ cs, e.1 = joinComps cs ∧
        HasFileAt (DirTree.mk [("a.txt", [5])] [("empty", DirTree.mk [] [])]) cs e.2) :=
  ⟨((spec_C9 witEnv
      [("d", FSEntry.dir (DirTree.mk [("a.txt", [5])] [("empty", DirTree.mk [] [])]))]
      "d" "o.tar" (DirTree.mk [("a.txt", [5])] [("empty", DirTree.mk [] [])]) rfl rfl
      (fun es => unpackW_packW es) (fun _ es => unpackW_packW es))).1,
   ((spec_C9 witEnv
      [("d", FSEntry.dir (DirTree.mk [("a.txt", [5])] [("empty", DirTree.mk [] [])]))]
      "d" "o.tar" _ rfl rfl
      (fun es => unpackW_packW es) (fun _ es => unpackW_packW es))).2.2.1⟩

/-- Claim C10: every domain failure of the three public operations — input
missing, output existing, unsupported single-file format, unsupported
directory format — is the tool's own `CompressionError`, and the four
message templates are pairwise distinct whatever is interpolated, so the
cases are told apart by message text alone. -/
theorem spec_C10 :
    (∀ p q, inputMissingErr p ≠ outputExistsErr q) ∧
    (∀ p q, inputMissingErr p ≠ unsupportedFormatErr q) ∧
    (∀ p q, inputMissingErr p ≠ unsupportedDirFormatErr q) ∧
    (∀ p q, outputExistsErr p ≠ unsupportedFormatErr q) ∧
    (∀ p q, outputExistsErr p ≠ unsupportedDirFormatErr q) ∧
    (∀ p q, unsupportedFormatErr p ≠ unsupportedDirFormatErr q) ∧
    (∀ env (fs : FS) i o f l, pathExists fs i = false →
      compress_file env fs i o f l = (fs, some (ZErr.comp (inputMissingErr i))) ∧
      compress_directory env fs i o f = (fs, some (ZErr.comp (inputMissingErr i))) ∧
      decompress env fs i o = (fs, some (ZErr.comp (inputMissingErr i)))) ∧
    (∀ env (fs : FS) i o f l, pathExists fs i = true → pathExists fs o = true →
      compress_file env fs i o f l = (fs, some (ZErr.comp (outputExistsErr o))) ∧
      compress_directory env fs i o f = (fs, some (ZErr.comp (outputExistsErr o))) ∧
      decompress env fs i o = (fs, some (ZErr.comp (outputExistsErr o)))) ∧
    (∀ env (fs : FS) i o f l (data : Bytes), readFile fs i = some data →
      pathExists fs o = false →
      f ∉ (["gz", "xz", "bz2", "zip", "tar", "zst"] : List String) →
      compress_file env fs i o f l = (fs, some (ZErr.comp (unsupportedFormatErr f)))) ∧
    (∀ env (fs : FS) i o f, pathExists fs i = true → pathExists fs o = false →
      f ∉ (["tar", "zip", "zst"] : List String) →
      compress_directory env fs i o f =
        (fs, some (ZErr.comp (unsupportedDirFormatErr f)))) ∧
    (∀ env (fs : FS) i o, pathExists fs i = true → pathExists fs o = false →
      detectFormat i = none →
      decompress env fs i o = (fs, some (ZErr.comp (unsupportedFormatErr i)))) := by
  refine ⟨?_, ?_, ?_, ?_, ?_, ?_, ?_, ?_, ?_, ?_, ?_⟩
  · exact fun p q => compErrNe "Input path does not exist: "
      "Output path already exists: " 1 (by decide) (by decide) (by decide) p q
  · exact fun p q => compErrNe "Input path does not exist: "
      "Unsupported format: " 1 (by decide) (by decide) (by decide) p q
  · exact fun p q => compErrNe "Input path does not exist: "
      "Unsupported format for directories: " 1 (by decide) (by decide) (by decide) p q
  · exact fun p q => compErrNe "Output path already exists: "
      "Unsupported format: " 1 (by decide) (by decide) (by decide) p q
  · exact fun p q => compErrNe "Output path already exists: "
      "Unsupported format for directories: " 1 (by decide) (by decide) (by decide) p q
  · exact fun p q => compErrNe "Unsupported format: "
      "Unsupported format for directories: " 19 (by decide) (by decide) (by decide) p q
  · exact fun env fs i o f l h =>
      ⟨compress_file_missing_input env o f l h,
       compress_directory_missing_input env o f h,
       decompress_missing_input env o h⟩
  · exact fun env fs i o f l hi ho =>
      ⟨compress_file_output_exists env f l hi ho,
       compress_directory_output_exists env f hi ho,
       decompress_output_exists env hi ho⟩
  · exact fun env fs i o f l data hread ho hf =>
      compress_file_bad_format env l hread ho hf
  · exact fun env fs i o f hi ho hf =>
      compress_directory_bad_format env hi ho hf
  · exact fun env fs i o hi ho hdet =>
      decompress_bad_suffix env hi ho hdet

/-- Witness for C10 at concrete inputs: a bad single-file format raises the
single error type with the unsupported-format message. -/
theorem spec_C10_witness :
    compress_file witEnv [("in.txt", FSEntry.file [1])] "in.txt" "out.rar" "rar" 6 =
      ([("in.txt", FSEntry.file [1])],
        some (ZErr.comp (unsupportedFormatErr "rar"))) ∧
    unsupportedFormatErr "rar" ≠ unsupportedDirFormatErr "rar" :=
  ⟨spec_C10.2.2.2.2.2.2.2.2.1 witEnv [("in.txt", FSEntry.file [1])]
      "in.txt" "out.rar" "rar" 6 [1] rfl rfl (by decide),
   spec_C10.2.2.2.2.2.1 "rar" "rar"⟩

/-- The dispatch chain only ever selects one of the six known tags. -/
theorem detectFormat_cases {p f : String} (h : detectFormat p = some f) :
    f = "gz" ∨ f = "xz" ∨ f = "bz2" ∨ f = "zip" ∨ f = "tar" ∨ f = "zst" := by
  unfold detectFormat at h
  split_ifs at h <;> simp_all

/-- Claim C1: compressing a readable file and decompressing the produced
artifact recovers the original byte content for every format the dispatch
chain can select, provided the artifact's name routes decompression to the
same format and the underlying codecs satisfy their round-trip laws; for
the archive formats the content reappears at the extracted entry under the
output path, and for zst both directions are identity byte copies, so the
intermediate artifact already equals the original content. -/
theorem spec_C1 (env : CodecEnv) (fs : FS) (i o o2 f : String) (l : Nat) (data : Bytes)
    (hread : readFile fs i = some data)
    (ho : pathExists fs o = false)
    (ho2 : pathExists fs o2 = false)
    (hne : o2 ≠ o)
    (hdet : detectFormat o = some f)
    (hgz : ∀ lv b, env.gzDec (env.gzEnc lv b) = some b)
    (hxz : ∀ lv b, env.xzDec (env.xzEnc lv b) = some b)
    (hbz2 : ∀ lv b, env.bz2Dec (env.bz2Enc lv b) = some b)
    (hzip : ∀ lv es, env.zipUnpack (env.zipPack lv es) = some es)
    (htar : ∀ es, env.tarUnpack (env.tarPack es) = some es) :
    ∃ fs1, compress_file env fs i o f l = (fs1, none) ∧
      ∃ fs2, decompress env fs1 o o2 = (fs2, none) ∧
        readFile fs2 (recoveredPath f i o2) = some data ∧
        (f = "zst" → readFile fs1 o = some data ∧ readFile fs2 o2 = some data) := by
  have hne' : o ≠ o2 := Ne.symm hne
  rcases detectFormat_cases hdet with hf | hf | hf | hf | hf | hf <;> subst hf
  · -- gz
    have hsuf := detectFormat_gz hdet
    refine ⟨writeFile fs o (env.gzEnc l data), compress_file_gz env l hread ho, ?_⟩
    have hread1 : readFile (writeFile fs o (env.gzEnc l data)) o =
        some (env.gzEnc l data) := readFile_write_self fs o _
    have ho2' : pathExists (writeFile fs o (env.gzEnc l data)) o2 = false := by
      rw [pathExists_write_ne fs o o2 _ hne']; exact ho2
    refine ⟨_, decompress_gz env ho2' hsuf hread1 (hgz l data), ?_, ?_⟩
    · have hp : recoveredPath "gz" i o2 = o2 := by simp [recoveredPath]
      rw [hp]; exact readFile_write_self _ o2 data
    · intro hz; exact absurd hz (by decide)
  · -- xz
    obtain ⟨hs1, hs2⟩ := detectFormat_xz hdet
    refine ⟨writeFile fs o (env.xzEnc l data), compress_file_xz env l hread ho, ?_⟩
    have hread1 : readFile (writeFile fs o (env.xzEnc l data)) o =
        some (env.xzEnc l data) := readFile_write_self fs o _
    have ho2' : pathExists (writeFile fs o (env.xzEnc l data)) o2 = false := by
      rw [pathExists_write_ne fs o o2 _ hne']; exact ho2
    refine ⟨_, decompress_xz env ho2' hs1 hs2 hread1 (hxz l data), ?_, ?_⟩
    · have hp : recoveredPath "xz" i o2 = o2 := by simp [recoveredPath]
      rw [hp]; exact readFile_write_self _ o2 data
    · intro hz; exact absurd hz (by decide)
  · -- bz2
    obtain ⟨hs1, hs2, hs3⟩ := detectFormat_bz2 hdet
    refine ⟨writeFile fs o (env.bz2Enc l data), compress_file_bz2 env l hread ho, ?_⟩
    have hread1 : readFile (writeFile fs o (env.bz2Enc l data)) o =
        some (env.bz2Enc l data) := readFile_write_self fs o _
    have ho2' : pathExists (writeFile fs o (env.bz2Enc l data)) o2 = false := by
      rw [pathExists_write_ne fs o o2 _ hne']; exact ho2
    refine ⟨_, decompress_bz2 env ho2' hs1 hs2 hs3 hread1 (hbz2 l data), ?_, ?_⟩
    · have hp : recoveredPath "bz2" i o2 = o2 := by simp [recoveredPath]
      rw [hp]; exact readFile_write_self _ o2 data
    · intro hz; exact absurd hz (by decide)
  · -- zip
    obtain ⟨hs1, hs2, hs3, hs4⟩ := detectFormat_zip hdet
    refine ⟨writeFile fs o (env.zipPack (some l) [(basename i, data)]),
      compress_file_zip env l hread ho, ?_⟩
    have hread1 : readFile (writeFile fs o (env.zipPack (some l) [(basename i, data)])) o =
        some (env.zipPack (some l) [(basename i, data)]) := readFile_write_self fs o _
    have ho2' :
        pathExists (writeFile fs o (env.zipPack (some l) [(basename i, data)])) o2 =
          false := by
      rw [pathExists_write_ne fs o o2 _ hne']; exact ho2
    refine ⟨_, decompress_zip env ho2' hs1 hs2 hs3 hs4 hread1
      (hzip (some l) [(basename i, data)]), ?_, ?_⟩
    · have hp : recoveredPath "zip" i o2 = o2 ++ "/" ++ basename i := by
        simp [recoveredPath]
      rw [hp, extractAll_single]
      exact readFile_write_self _ _ data
    · intro hz; exact absurd hz (by decide)
  · -- tar
    obtain ⟨hs1, hs2, hs3, hs4, hs5⟩ := detectFormat_tar hdet
    refine ⟨writeFile fs o (env.tarPack [(basename i, data)]),
      compress_file_tar env l hread ho, ?_⟩
    have hread1 : readFile (writeFile fs o (env.tarPack [(basename i, data)])) o =
        some (env.tarPack [(basename i, data)]) := readFile_write_self fs o _
    have ho2' :
        pathExists (writeFile fs o (env.tarPack [(basename i, data)])) o2 = false := by
      rw [pathExists_write_ne fs o o2 _ hne']; exact ho2
    refine ⟨_, decompress_tar env ho2' hs1 hs2 hs3 hs4 hs5 hread1
      (htar [(basename i, data)]), ?_, ?_⟩
    · have hp : recoveredPath "tar" i o2 = o2 ++ "/" ++ basename i := by
        simp [recoveredPath]
      rw [hp, extractAll_single]
      exact readFile_write_self _ _ data
    · intro hz; exact absurd hz (by decide)
  · -- zst
    obtain ⟨hs1, hs2, hs3, hs4, hs5, hs6⟩ := detectFormat_zst hdet
    refine ⟨writeFile fs o data, compress_file_zst env l hread ho, ?_⟩
    have hread1 : readFile (writeFile fs o data) o = some data :=
      readFile_write_self fs o _
    have ho2' : pathExists (writeFile fs o data) o2 = false := by
      rw [pathExists_write_ne fs o o2 _ hne']; exact ho2
    refine ⟨_, decompress_zst env ho2' hs1 hs2 hs3 hs4 hs5 hs6 hread1, ?_, ?_⟩
    · have hp : recoveredPath "zst" i o2 = o2 := by simp [recoveredPath]
      rw [hp]; exact readFile_write_self _ o2 data
    · intro _
      exact ⟨hread1, readFile_write_self _ o2 data⟩

/-- Witness for C1 at a concrete file and the gz format. -/
theorem spec_C1_witness :
    ∃ fs1, compress_file witEnv [("in.txt", FSEntry.file [10, 20, 30])]
        "in.txt" "a.gz" "gz" 6 = (fs1, none) ∧
      ∃ fs2, decompress witEnv fs1 "a.gz" "b.out" = (fs2, none) ∧
        readFile fs2 (recoveredPath "gz" "in.txt" "b.out") = some [10, 20, 30] ∧
        ("gz" = "zst" → readFile fs1 "a.gz" = some [10, 20, 30] ∧
          readFile fs2 "b.out" = some [10, 20, 30]) :=
  spec_C1 witEnv [("in.txt", FSEntry.file [10, 20, 30])] "in.txt" "a.gz" "b.out"
    "gz" 6 [10, 20, 30] rfl rfl rfl (by decide) (by decide)
    (fun _ _ => rfl) (fun _ _ => rfl) (fun _ _ => rfl)
    (fun _ es => unpackW_packW es) (fun es => unpackW_packW es)
